import Mathlib

/-!
Verification of the rhinestone SDK encoding core (Rust crates
`encoding-core`).  The definitions below are a shallow embedding of
the source files under `crates/encoding-core/src`: validator encoders
(`validators/ownable.rs`, `validators/ens.rs`, `validators/webauthn.rs`,
`validators/multi_factor.rs`) and the typed-data builders
(`typed_data/compact.rs`, `typed_data/permit2.rs`,
`typed_data/single_chain.rs`).  Machine integers are modelled as `Nat`
with explicit `% 2 ^ w` where overflow matters; fallible Rust functions
returning `Result<_, String>` are modelled with `Except String`.
-/

/-! ## Hex primitives (alloy_primitives::hex) -/

/-- Value of one hexadecimal digit character, as in `char::to_digit(16)`. -/
def hexDigitVal (c : Char) : Option Nat :=
  if '0' ≤ c ∧ c ≤ '9' then some (c.toNat - '0'.toNat)
  else if 'a' ≤ c ∧ c ≤ 'f' then some (c.toNat - 'a'.toNat + 10)
  else if 'A' ≤ c ∧ c ≤ 'F' then some (c.toNat - 'A'.toNat + 10)
  else none

/-- Lowercase hex character for a value `0 ≤ n < 16` (as emitted by
`alloy_primitives::hex::encode`). -/
def hexChar (n : Nat) : Char :=
  if n < 10 then Char.ofNat ('0'.toNat + n) else Char.ofNat ('a'.toNat + (n - 10))

/-- Model of `alloy_primitives::hex::encode`: lowercase hex string of a byte list. -/
def hexEncodeBytes (bs : List Nat) : String :=
  String.mk (bs.flatMap (fun b => [hexChar (b / 16), hexChar (b % 16)]))

/-- Model of `alloy_primitives::hex::decode` on a raw character list (no `0x`
handling; callers strip the prefix first, as the Rust code does).  Fails
on odd length or a non-hex character. -/
def hexDecodeList : List Char → Option (List Nat)
  | [] => some []
  | [_] => none
  | c1 :: c2 :: rest =>
    match hexDigitVal c1, hexDigitVal c2, hexDecodeList rest with
    | some h, some l, some tl => some ((16 * h + l) :: tl)
    | _, _, _ => none

/-- Model of `str::trim_start_matches("0x")`: removes every leading `"0x"` occurrence. -/
def trimStart0x : List Char → List Char
  | '0' :: 'x' :: rest => trimStart0x rest
  | s => s

/-- Strip a single leading `"0x"` if present (as `alloy` hex parsing does). -/
def strip0xOnce (s : List Char) : List Char :=
  match s with
  | '0' :: 'x' :: rest => rest
  | _ => s

/-! ## Big-endian byte serialization (`U256::to_be_bytes` and friends) -/

/-- Big-endian serialization of `n` into exactly `k` bytes (the value is
implicitly reduced `mod 2 ^ (8 * k)`, as fixed-width machine serialization
does). -/
def natToBeBytes : Nat → Nat → List Nat
  | 0, _ => []
  | k + 1, n => natToBeBytes k (n / 256) ++ [n % 256]

/-- Big-endian interpretation of a byte list as a natural number. -/
def beBytesToNat (bs : List Nat) : Nat :=
  bs.foldl (fun acc b => acc * 256 + b) 0

/-! ## Integer parsing (ruint / Rust std) -/

/-- One digit for `ruint`'s `from_str_radix` (radix 10 or 16 here). -/
def digitVal (radix : Nat) (c : Char) : Option Nat :=
  match hexDigitVal c with
  | some d => if d < radix then some d else none
  | none => none

/-- Accumulating digit fold for `U256::from_str_radix`. -/
def parseDigitsAux (radix : Nat) : Nat → List Char → Option Nat
  | acc, [] => some acc
  | acc, c :: rest =>
    match digitVal radix c with
    | some d => parseDigitsAux radix (acc * radix + d) rest
    | none => none

/-- Model of `alloy_primitives::U256::from_str_radix`: at least one digit, all
characters digits of the radix, value representable in 256 bits. -/
def u256FromStrRadix (s : List Char) (radix : Nat) : Option Nat :=
  if s.isEmpty then none
  else
    match parseDigitsAux radix 0 s with
    | some n => if n < 2 ^ 256 then some n else none
    | none => none

/-- Model of `U256::from_str` (ruint `FromStr`): `0x` prefix selects radix 16,
otherwise decimal. -/
def u256FromStr (s : String) : Option Nat :=
  match s.data with
  | '0' :: 'x' :: rest => u256FromStrRadix rest 16
  | other => u256FromStrRadix other 10

/-- Rust `str::parse::<u64>()`: optional leading `+`, then at least one
decimal digit, value below `2 ^ 64`. -/
def parseU64 (s : String) : Option Nat :=
  let cs := match s.data with
    | '+' :: rest => rest
    | other => other
  if cs.isEmpty then none
  else if cs.all (fun c => '0' ≤ c ∧ c ≤ '9') then
    match parseDigitsAux 10 0 cs with
    | some n => if n < 2 ^ 64 then some n else none
    | none => none
  else none

/-- Model of `alloy_primitives::Address::from_str`: optional single `0x` prefix,
exactly 40 hex digits, no checksum validation.  The parsed address is the
big-endian value of its 20 bytes (a `Nat` below `2 ^ 160`). -/
def parseAddress (s : String) : Option Nat :=
  let cs := strip0xOnce s.data
  if cs.length = 40 then (hexDecodeList cs).map beBytesToNat else none

/-! ## Validator data model (`types.rs`) -/

/-- Output for all validator encoding functions (`ModuleOutput`). -/
structure ModuleOutput where
  address : String
  initData : String
  deInitData : String
  additionalContext : String
  moduleType : String
  deriving Repr, DecidableEq

/-- Model of `ModuleOutput::validator`. -/
def ModuleOutput.validator (address : String) (initData : String) : ModuleOutput :=
  ⟨address, initData, "0x", "0x", "validator"⟩

/-- Model of `OwnableValidatorInput` (threshold is a Rust `u64`). -/
structure OwnableValidatorInput where
  threshold : Nat
  owners : List String
  address : Option String

/-- Model of `ENSValidatorInput` (expirations are Rust `u64` values). -/
structure ENSValidatorInput where
  threshold : Nat
  owners : List String
  ownerExpirations : List Nat
  address : Option String

/-- Model of `WebAuthnCredentialInput`. -/
structure WebAuthnCredentialInput where
  pubKeyX : String
  pubKeyY : String

/-- Model of `WebAuthnValidatorInput`. -/
structure WebAuthnValidatorInput where
  threshold : Nat
  credentials : List WebAuthnCredentialInput
  address : Option String

/-- Model of `MultiFactorValidatorEntry`. -/
structure MultiFactorValidatorEntry where
  validatorType : String
  threshold : Option Nat
  owners : Option (List String)
  ownerExpirations : Option (List Nat)
  credentials : Option (List WebAuthnCredentialInput)
  address : Option String

/-- Model of `MultiFactorValidatorInput`. -/
structure MultiFactorValidatorInput where
  threshold : Nat
  validators : List (Option MultiFactorValidatorEntry)

/-! ## Fallible element-wise mapping (Rust `Iterator::collect::<Result<Vec<_>,_>>`) -/

/-- Model of `collect::<Result<Vec<_>, String>>()`: first error wins, otherwise the
list of successes in order. -/
def mapME (f : α → Except String β) : List α → Except String (List β)
  | [] => .ok []
  | a :: l =>
    match f a with
    | .error e => .error e
    | .ok b =>
      match mapME f l with
      | .error e => .error e
      | .ok bs => .ok (b :: bs)

/-! ## ABI parameter encoding (alloy_sol_types `abi_encode_params`)

The shapes used by the validator encoders, laid out per the canonical
Ethereum ABI: static head words followed by dynamic tail blocks. -/

/-- One 32-byte ABI word holding a numeric value. -/
def abiWord (n : Nat) : List Nat := natToBeBytes 32 n

/-- Model of `(uint256, address[]).abi_encode_params()`. -/
def abiEncodeOwnableParams (threshold : Nat) (owners : List Nat) : List Nat :=
  abiWord threshold ++ abiWord 64 ++ abiWord owners.length ++ (owners.map abiWord).flatten

/-- Model of `(uint256, Owner[]).abi_encode_params()` where `Owner` is the static
tuple `(address, uint48)` — two words per element. -/
def abiEncodeEnsParams (threshold : Nat) (owners : List (Nat × Nat)) : List Nat :=
  abiWord threshold ++ abiWord 64 ++ abiWord owners.length ++
    (owners.map (fun p => abiWord p.1 ++ abiWord p.2)).flatten

/-- Model of `(uint256, Credential[]).abi_encode_params()` where `Credential` is the
static tuple `(uint256, uint256, bool)` — three words per element. -/
def abiEncodeWebauthnParams (threshold : Nat) (creds : List (Nat × Nat × Bool)) : List Nat :=
  abiWord threshold ++ abiWord 64 ++ abiWord creds.length ++
    (creds.map (fun c => abiWord c.1 ++ abiWord c.2.1 ++ abiWord (if c.2.2 then 1 else 0))).flatten

/-- Right-pad a byte block with zeros to a multiple of 32 bytes. -/
def padTo32 (b : List Nat) : List Nat :=
  b ++ List.replicate ((32 - b.length % 32) % 32) 0

/-- Tail block of one `ValidatorEntry` `(bytes32, bytes)`: the raw 32 key
bytes, the offset word of the `bytes` field, its length word, and the
padded data. -/
def abiEncodeMFEntry (e : List Nat × List Nat) : List Nat :=
  e.1 ++ abiWord 64 ++ abiWord e.2.length ++ padTo32 e.2

/-- Per-element offset head words of a dynamic-tuple array, given the
running offset of the first element's tail. -/
def abiMFHeads : Nat → List (List Nat) → List Nat
  | _, [] => []
  | off, t :: ts => abiWord off ++ abiMFHeads (off + t.length) ts

/-- Model of `Vec<ValidatorEntry>::abi_encode_params()`: the `(bytes32, bytes)[]`
array encoded as a single dynamic parameter (offset word, length word,
element offsets, element tails). -/
def abiEncodeMFEntries (entries : List (List Nat × List Nat)) : List Nat :=
  let tails := entries.map abiEncodeMFEntry
  abiWord 32 ++ abiWord entries.length ++ abiMFHeads (32 * entries.length) tails ++ tails.flatten

/-! ## Validator encoders -/

def OWNABLE_VALIDATOR_ADDRESS : String := "0x000000000013fdb5234e4e3162a810f54d9f7e98"

def ENS_VALIDATOR_ADDRESS : String := "0xdc38f07b060374b6480c4bf06231e7d10955bca4"

def WEBAUTHN_VALIDATOR_ADDRESS : String := "0x0000000000578c4cb0e472a5462da43c495c3f33"

def MULTI_FACTOR_VALIDATOR_ADDRESS : String := "0xf6bdf42c9be18ceca5c06c42a43daf7fbbe7896b"

/-- Parse one owner address, with the error message of `ownable.rs` /
`ens.rs`. -/
def parseOwnerAddress (o : String) : Except String Nat :=
  match parseAddress o with
  | some a => .ok a
  | none => .error "invalid owner address"

/-- Model of `validators::ownable::encode`. -/
def encodeOwnable (input : OwnableValidatorInput) : Except String ModuleOutput :=
  match mapME parseOwnerAddress input.owners with
  | .error e => .error e
  | .ok owners =>
    let sorted := List.insertionSort (· ≤ ·) owners
    let initDataHex := "0x" ++ hexEncodeBytes (abiEncodeOwnableParams input.threshold sorted)
    .ok (ModuleOutput.validator (input.address.getD OWNABLE_VALIDATOR_ADDRESS) initDataHex)

/-- Model of `(1u64 << 48) - 1`, the default expiration in `ens.rs`. -/
def maxUint48 : Nat := (1 <<< 48) - 1

/-- The caller-level `(owner string, effective expiration)` pairs of an
expiring-owner input: `owners` enumerated, each paired with
`owner_expirations.get(i).copied().unwrap_or(max_uint48)`. -/
def ensEffectivePairs (input : ENSValidatorInput) : List (String × Nat) :=
  input.owners.enum.map (fun p => (p.2, input.ownerExpirations.getD p.1 maxUint48))

/-- The parsed `owner_pairs` vector of `ens.rs` (address value, raw `u64`
expiration), before sorting. -/
def parsePairsENS (input : ENSValidatorInput) : Except String (List (Nat × Nat)) :=
  mapME (fun p =>
    match parseAddress p.1 with
    | some a => .ok (a, p.2)
    | none => .error "invalid owner address")
    (ensEffectivePairs input)

/-- Address-only key order used by `owner_pairs.sort_by_key(|(addr, _)| *addr)`. -/
def addrKeyLe (p q : Nat × Nat) : Prop := p.1 ≤ q.1

instance : DecidableRel addrKeyLe := fun p q => Nat.decLe p.1 q.1

instance : IsTotal (Nat × Nat) addrKeyLe := ⟨fun a b => Nat.le_total a.1 b.1⟩

instance : IsTrans (Nat × Nat) addrKeyLe := ⟨fun _ _ _ h1 h2 => Nat.le_trans h1 h2⟩

/-- Model of `expiration.try_into().unwrap_or(u64::from(u32::MAX).try_into().unwrap())`:
conversion of a `u64` expiration into the ABI `uint48` field; a value not
representable in 48 bits falls back to `u32::MAX = 4294967295`. -/
def expirationToUint48 (e : Nat) : Nat :=
  if e < 2 ^ 48 then e else 4294967295

/-- Model of `validators::ens::encode`. -/
def encodeENS (input : ENSValidatorInput) : Except String ModuleOutput :=
  match parsePairsENS input with
  | .error e => .error e
  | .ok ownerPairs =>
    let sorted := List.insertionSort addrKeyLe ownerPairs
    let owners := sorted.map (fun p => (p.1, expirationToUint48 p.2))
    let initDataHex := "0x" ++ hexEncodeBytes (abiEncodeEnsParams input.threshold owners)
    .ok (ModuleOutput.validator (input.address.getD ENS_VALIDATOR_ADDRESS) initDataHex)

/-- Parse one WebAuthn credential (`U256::from_str` on both coordinates). -/
def parseCredential (c : WebAuthnCredentialInput) : Except String (Nat × Nat × Bool) :=
  match u256FromStr c.pubKeyX with
  | none => .error "invalid pubKeyX"
  | some x =>
    match u256FromStr c.pubKeyY with
    | none => .error "invalid pubKeyY"
    | some y => .ok (x, y, false)

/-- Model of `validators::webauthn::encode`. -/
def encodeWebauthn (input : WebAuthnValidatorInput) : Except String ModuleOutput :=
  match mapME parseCredential input.credentials with
  | .error e => .error e
  | .ok credentials =>
    let initDataHex := "0x" ++ hexEncodeBytes (abiEncodeWebauthnParams input.threshold credentials)
    .ok (ModuleOutput.validator (input.address.getD WEBAUTHN_VALIDATOR_ADDRESS) initDataHex)

/-- Dispatch on the nested validator kind in `multi_factor.rs`. -/
def encodeInnerValidator (v : MultiFactorValidatorEntry) : Except String ModuleOutput :=
  if v.validatorType = "ecdsa" then
    match v.owners with
    | none => .error "ecdsa validator requires owners"
    | some owners =>
      encodeOwnable ⟨v.threshold.getD 1, owners, v.address⟩
  else if v.validatorType = "ens" then
    match v.owners with
    | none => .error "ens validator requires owners"
    | some owners =>
      match v.ownerExpirations with
      | none => .error "ens validator requires ownerExpirations"
      | some expirations =>
        encodeENS ⟨v.threshold.getD 1, owners, expirations, v.address⟩
  else if v.validatorType = "passkey" then
    match v.credentials with
    | none => .error "passkey validator requires credentials"
    | some credentials =>
      encodeWebauthn ⟨v.threshold.getD 1, credentials, v.address⟩
  else .error ("unknown validator type: " ++ v.validatorType)

/-- The 32-byte packed key `[12 bytes big-endian index][20 bytes address]`
of one composite entry. -/
def packValidatorAndId (index addr : Nat) : List Nat :=
  natToBeBytes 12 index ++ natToBeBytes 20 addr

/-- Process one present composite entry: encode the inner validator, parse
its address, pack the key and decode its `initData` hex into raw bytes. -/
def buildMFEntry (index : Nat) (v : MultiFactorValidatorEntry) :
    Except String (List Nat × List Nat) :=
  match encodeInnerValidator v with
  | .error e => .error e
  | .ok innerModule =>
    match parseAddress innerModule.address with
    | none => .error "invalid validator address"
    | some validatorAddress =>
      match hexDecodeList (trimStart0x innerModule.initData.data) with
      | none => .error "hex decode"
      | some initDataBytes =>
        .ok (packValidatorAndId index validatorAddress, initDataBytes)

/-- The entry-accumulating loop of `multi_factor::encode`: `None` entries
are skipped (`continue`) while the enumeration index keeps advancing. -/
def buildMFEntries : Nat → List (Option MultiFactorValidatorEntry) →
    Except String (List (List Nat × List Nat))
  | _, [] => .ok []
  | index, none :: rest => buildMFEntries (index + 1) rest
  | index, some v :: rest =>
    match buildMFEntry index v with
    | .error e => .error e
    | .ok entry =>
      match buildMFEntries (index + 1) rest with
      | .error e => .error e
      | .ok entries => .ok (entry :: entries)

/-- Model of `validators::multi_factor::encode`: `encodePacked(uint8, bytes)` — the
single raw threshold byte (`threshold as u8`) followed by the ABI-encoded
entry array. -/
def encodeMultiFactor (input : MultiFactorValidatorInput) : Except String ModuleOutput :=
  match buildMFEntries 0 input.validators with
  | .error e => .error e
  | .ok entries =>
    let abiEncoded := abiEncodeMFEntries entries
    let result := (input.threshold % 256) :: abiEncoded
    .ok (ModuleOutput.validator MULTI_FACTOR_VALIDATOR_ADDRESS ("0x" ++ hexEncodeBytes result))

/-! ## JSON value model (serde_json::Value) -/

/-- A `serde_json::Value` as produced by the typed-data builders: strings,
non-negative numbers (the only numbers the builders emit), arrays and
objects (field order as inserted). -/
inductive JsonValue where
  | str : String → JsonValue
  | num : Nat → JsonValue
  | arr : List JsonValue → JsonValue
  | obj : List (String × JsonValue) → JsonValue

/-- Field access on a JSON object. -/
def JsonValue.getF : JsonValue → String → Option JsonValue
  | .obj fields, k => fields.lookup k
  | _, _ => none

/-- Path access on a JSON tree. -/
def jsonPath (j : JsonValue) (ks : List String) : Option JsonValue :=
  ks.foldl (fun acc k => acc.bind (fun v => v.getF k)) (some j)

/-- One `{ "name": …, "type": … }` field descriptor of an EIP-712 schema. -/
def tdField (name ty : String) : JsonValue :=
  .obj [("name", .str name), ("type", .str ty)]

/-- Model of `parse_bigint`: big integers are returned as decimal strings for the
consumer to convert, never as native JSON numbers. -/
def parseBigint (s : String) : JsonValue := .str s

/-! ## Typed-data input model (`types.rs`) -/

/-- Model of `CompactMandateInput` (also the shape of `Permit2MandateInput`). -/
structure CompactMandateInput where
  recipient : String
  tokenOut : List (String × String)
  destinationChainId : String
  fillDeadline : String
  minGas : String
  preClaimOps : JsonValue
  destinationOps : JsonValue
  qualifierEncodedVal : String

/-- Model of `CompactElementInput` (also the shape of `Permit2ElementInput`). -/
structure CompactElementInput where
  arbiter : String
  chainId : String
  idsAndAmounts : List (String × String)
  mandate : CompactMandateInput

/-- Model of `CompactInput`. -/
structure CompactInput where
  sponsor : String
  nonce : String
  expires : String
  elements : List CompactElementInput

/-- Model of `Permit2Input`. -/
structure Permit2Input where
  element : CompactElementInput
  nonce : String
  expires : String

/-- Model of `SingleChainLegacyInput`. -/
structure SingleChainLegacyInput where
  account : String
  intentExecutorAddress : String
  destinationChainId : String
  destinationOps : JsonValue
  nonce : String

/-- Model of `GasRefundInput`. -/
structure GasRefundInput where
  token : String
  exchangeRate : String
  overhead : String

/-- Model of `SingleChainGasRefundInput`. -/
structure SingleChainGasRefundInput where
  account : String
  intentExecutorAddress : String
  destinationChainId : String
  destinationOps : JsonValue
  nonce : String
  gasRefund : GasRefundInput

/-! ## Token-ID codec (`typed_data/compact.rs`, `typed_data/permit2.rs`) -/

/-- The shared parse step of the token-id codec:
`U256::from_str_radix(id_str.trim_start_matches("0x"),
if id_str.starts_with("0x") { 16 } else { 10 })`. -/
def parseTokenId (idStr : String) : Option Nat :=
  u256FromStrRadix (trimStart0x idStr.data)
    (match idStr.data with
     | '0' :: 'x' :: _ => 16
     | _ => 10)

/-- Model of `split_token_id`: lockTag = first 12 bytes, token = last 20 bytes of
the 32-byte big-endian serialization, both hex-encoded with `0x` prefix. -/
def splitTokenId (idStr : String) : Except String (String × String) :=
  match parseTokenId idStr with
  | none => .error "invalid token id"
  | some id =>
    let bytes := natToBeBytes 32 id
    .ok ("0x" ++ hexEncodeBytes (bytes.take 12), "0x" ++ hexEncodeBytes (bytes.drop 12))

/-- Model of `extract_token_address`: just the last 20 bytes of the 32-byte
big-endian serialization. -/
def extractTokenAddress (idStr : String) : Except String String :=
  match parseTokenId idStr with
  | none => .error "invalid token id"
  | some id =>
    let bytes := natToBeBytes 32 id
    .ok ("0x" ++ hexEncodeBytes (bytes.drop 12))

/-- Model of `permit2::to_token`: mask with `(1 << 160) - 1`, then take the last 20
bytes of the 32-byte big-endian serialization. -/
def toToken (idStr : String) : Except String String :=
  match parseTokenId idStr with
  | none => .error "invalid token id"
  | some id =>
    let mask := (1 <<< 160) - 1
    let token := id &&& mask
    let bytes := natToBeBytes 32 token
    .ok ("0x" ++ hexEncodeBytes (bytes.drop 12))

/-! ## Multichain-intent builder (`typed_data/compact.rs`)

The Keccak-256 primitive is an external trusted library
(`alloy_primitives::keccak256`); the builders take it as an explicit
function argument from bytes to the 32-byte digest. -/

def COMPACT_VERIFYING_CONTRACT : String := "0x73d2dc0c21fca4ec1601895d50df7f5624f07d3f"

def PERMIT2_ADDRESS : String := "0x000000000022D473030F116dDEE9F6B43aC78BA3"

/-- The `types` schema graph of the multichain builder. -/
def compactTypes : JsonValue :=
  .obj [
    ("MultichainCompact", .arr [tdField "sponsor" "address", tdField "nonce" "uint256",
      tdField "expires" "uint256", tdField "elements" "Element[]"]),
    ("Element", .arr [tdField "arbiter" "address", tdField "chainId" "uint256",
      tdField "commitments" "Lock[]", tdField "mandate" "Mandate"]),
    ("Lock", .arr [tdField "lockTag" "bytes12", tdField "token" "address",
      tdField "amount" "uint256"]),
    ("Mandate", .arr [tdField "target" "Target", tdField "minGas" "uint128",
      tdField "originOps" "Op", tdField "destOps" "Op", tdField "q" "bytes32"]),
    ("Target", .arr [tdField "recipient" "address", tdField "tokenOut" "Token[]",
      tdField "targetChain" "uint256", tdField "fillExpiry" "uint256"]),
    ("Token", .arr [tdField "token" "address", tdField "amount" "uint256"]),
    ("Op", .arr [tdField "vt" "bytes32", tdField "ops" "Ops[]"]),
    ("Ops", .arr [tdField "to" "address", tdField "value" "uint256",
      tdField "data" "bytes"])]

/-- Decode the raw qualifier hex and hash it (`keccak256(hex::decode(…))`),
producing the mandate's `q` digest as a prefixed hex string. -/
def qualifierDigest (keccak : List Nat → List Nat) (qualifierEncodedVal : String) :
    Except String String :=
  match hexDecodeList (trimStart0x qualifierEncodedVal.data) with
  | none => .error "invalid qualifier hex"
  | some bytes => .ok ("0x" ++ hexEncodeBytes (keccak bytes))

/-- One commitment `{ lockTag, token, amount }` of the multichain builder. -/
def buildCommitment (p : String × String) : Except String JsonValue :=
  match splitTokenId p.1 with
  | .error e => .error e
  | .ok (lockTag, token) =>
    .ok (.obj [("lockTag", .str lockTag), ("token", .str token),
      ("amount", parseBigint p.2)])

/-- One payout `{ token, amount }` of the multichain builder
(`extract_token_address`). -/
def buildTokenOut (p : String × String) : Except String JsonValue :=
  match extractTokenAddress p.1 with
  | .error e => .error e
  | .ok token => .ok (.obj [("token", .str token), ("amount", parseBigint p.2)])

/-- One element of the multichain message body. -/
def buildCompactElement (keccak : List Nat → List Nat) (element : CompactElementInput) :
    Except String JsonValue :=
  match mapME buildCommitment element.idsAndAmounts with
  | .error e => .error e
  | .ok commitments =>
    match mapME buildTokenOut element.mandate.tokenOut with
    | .error e => .error e
    | .ok tokenOut =>
      match qualifierDigest keccak element.mandate.qualifierEncodedVal with
      | .error e => .error e
      | .ok q =>
        .ok (.obj [
          ("arbiter", .str element.arbiter),
          ("chainId", parseBigint element.chainId),
          ("commitments", .arr commitments),
          ("mandate", .obj [
            ("target", .obj [
              ("recipient", .str element.mandate.recipient),
              ("tokenOut", .arr tokenOut),
              ("targetChain", parseBigint element.mandate.destinationChainId),
              ("fillExpiry", parseBigint element.mandate.fillDeadline)]),
            ("minGas", parseBigint element.mandate.minGas),
            ("originOps", element.mandate.preClaimOps),
            ("destOps", element.mandate.destinationOps),
            ("q", .str q)])])

/-- Model of `compact::build_typed_data`. -/
def buildCompactTypedData (keccak : List Nat → List Nat) (input : CompactInput) :
    Except String JsonValue :=
  match input.elements.head? with
  | none => .error "elements must not be empty"
  | some first =>
    match parseU64 first.chainId with
    | none => .error "invalid chainId"
    | some chainId =>
      match mapME (buildCompactElement keccak) input.elements with
      | .error e => .error e
      | .ok elements =>
        .ok (.obj [
          ("domain", .obj [
            ("name", .str "The Compact"),
            ("version", .str "1"),
            ("chainId", .num chainId),
            ("verifyingContract", .str COMPACT_VERIFYING_CONTRACT)]),
          ("types", compactTypes),
          ("primaryType", .str "MultichainCompact"),
          ("message", .obj [
            ("sponsor", .str input.sponsor),
            ("nonce", parseBigint input.nonce),
            ("expires", parseBigint input.expires),
            ("elements", .arr elements)])])

/-! ## Permit2 builder (`typed_data/permit2.rs`) -/

/-- The `types` schema graph of the Permit2 builder. -/
def permit2Types : JsonValue :=
  .obj [
    ("TokenPermissions", .arr [tdField "token" "address", tdField "amount" "uint256"]),
    ("Token", .arr [tdField "token" "address", tdField "amount" "uint256"]),
    ("Target", .arr [tdField "recipient" "address", tdField "tokenOut" "Token[]",
      tdField "targetChain" "uint256", tdField "fillExpiry" "uint256"]),
    ("Ops", .arr [tdField "to" "address", tdField "value" "uint256",
      tdField "data" "bytes"]),
    ("Op", .arr [tdField "vt" "bytes32", tdField "ops" "Ops[]"]),
    ("Mandate", .arr [tdField "target" "Target", tdField "minGas" "uint128",
      tdField "originOps" "Op", tdField "destOps" "Op", tdField "q" "bytes32"]),
    ("PermitBatchWitnessTransferFrom", .arr [tdField "permitted" "TokenPermissions[]",
      tdField "spender" "address", tdField "nonce" "uint256",
      tdField "deadline" "uint256", tdField "mandate" "Mandate"])]

/-- One `{ token, amount }` record of the Permit2 builder (`to_token` mask
path, used for both `permitted` and `tokenOut`). -/
def buildPermit2Token (p : String × String) : Except String JsonValue :=
  match toToken p.1 with
  | .error e => .error e
  | .ok token => .ok (.obj [("token", .str token), ("amount", parseBigint p.2)])

/-- Model of `permit2::build_typed_data`. -/
def buildPermit2TypedData (keccak : List Nat → List Nat) (input : Permit2Input) :
    Except String JsonValue :=
  let element := input.element
  match parseU64 element.chainId with
  | none => .error "invalid chainId"
  | some chainId =>
    match mapME buildPermit2Token element.idsAndAmounts with
    | .error e => .error e
    | .ok tokenPermissions =>
      match mapME buildPermit2Token element.mandate.tokenOut with
      | .error e => .error e
      | .ok tokenOut =>
        match qualifierDigest keccak element.mandate.qualifierEncodedVal with
        | .error e => .error e
        | .ok q =>
          .ok (.obj [
            ("domain", .obj [
              ("name", .str "Permit2"),
              ("chainId", .num chainId),
              ("verifyingContract", .str PERMIT2_ADDRESS)]),
            ("types", permit2Types),
            ("primaryType", .str "PermitBatchWitnessTransferFrom"),
            ("message", .obj [
              ("permitted", .arr tokenPermissions),
              ("spender", .str element.arbiter),
              ("nonce", parseBigint input.nonce),
              ("deadline", parseBigint input.expires),
              ("mandate", .obj [
                ("target", .obj [
                  ("recipient", .str element.mandate.recipient),
                  ("tokenOut", .arr tokenOut),
                  ("targetChain", parseBigint element.mandate.destinationChainId),
                  ("fillExpiry", parseBigint element.mandate.fillDeadline)]),
                ("minGas", parseBigint element.mandate.minGas),
                ("originOps", element.mandate.preClaimOps),
                ("destOps", element.mandate.destinationOps),
                ("q", .str q)])])])

/-! ## Single-chain builders (`typed_data/single_chain.rs`) -/

/-- Model of `base_types()`: the shared `Op`/`Ops` schema entries. -/
def singleChainBaseTypes : List (String × JsonValue) :=
  [("Op", .arr [tdField "vt" "bytes32", tdField "ops" "Ops[]"]),
   ("Ops", .arr [tdField "to" "address", tdField "value" "uint256",
     tdField "data" "bytes"])]

/-- The `SingleChainOps` schema entry shared by both variants. -/
def singleChainOpsType : JsonValue :=
  .arr [tdField "account" "address", tdField "nonce" "uint256",
    tdField "op" "Op", tdField "gasRefund" "GasRefund"]

/-- Model of `single_chain::build_typed_data_legacy`: two-field `GasRefund` schema
and a fixed zero-address / zero-rate refund record. -/
def buildSingleChainLegacy (input : SingleChainLegacyInput) : Except String JsonValue :=
  match parseU64 input.destinationChainId with
  | none => .error "invalid chainId"
  | some chainId =>
    .ok (.obj [
      ("domain", .obj [
        ("name", .str "IntentExecutor"),
        ("version", .str "v0.0.1"),
        ("chainId", .num chainId),
        ("verifyingContract", .str input.intentExecutorAddress)]),
      ("types", .obj (singleChainBaseTypes ++
        [("SingleChainOps", singleChainOpsType),
         ("GasRefund", .arr [tdField "token" "address",
           tdField "exchangeRate" "uint256"])])),
      ("primaryType", .str "SingleChainOps"),
      ("message", .obj [
        ("account", .str input.account),
        ("nonce", parseBigint input.nonce),
        ("op", input.destinationOps),
        ("gasRefund", .obj [
          ("token", .str "0x0000000000000000000000000000000000000000"),
          ("exchangeRate", parseBigint "0")])])])

/-- Model of `single_chain::build_typed_data_with_gas_refund`: three-field
`GasRefund` schema carrying the caller-supplied refund values. -/
def buildSingleChainGasRefund (input : SingleChainGasRefundInput) : Except String JsonValue :=
  match parseU64 input.destinationChainId with
  | none => .error "invalid chainId"
  | some chainId =>
    .ok (.obj [
      ("domain", .obj [
        ("name", .str "IntentExecutor"),
        ("version", .str "v0.0.1"),
        ("chainId", .num chainId),
        ("verifyingContract", .str input.intentExecutorAddress)]),
      ("types", .obj (singleChainBaseTypes ++
        [("SingleChainOps", singleChainOpsType),
         ("GasRefund", .arr [tdField "token" "address",
           tdField "exchangeRate" "uint256", tdField "overhead" "uint256"])])),
      ("primaryType", .str "SingleChainOps"),
      ("message", .obj [
        ("account", .str input.account),
        ("nonce", parseBigint input.nonce),
        ("op", input.destinationOps),
        ("gasRefund", .obj [
          ("token", .str input.gasRefund.token),
          ("exchangeRate", parseBigint input.gasRefund.exchangeRate),
          ("overhead", parseBigint input.gasRefund.overhead)])])])

/-! ## Lemmas: big-endian byte serialization -/

theorem natToBeBytes_length (k n : Nat) : (natToBeBytes k n).length = k := by
  induction k generalizing n with
  | zero => rfl
  | succ k ih => simp [natToBeBytes, ih]

theorem beBytesToNat_append (xs : List Nat) (b : Nat) :
    beBytesToNat (xs ++ [b]) = beBytesToNat xs * 256 + b := by
  simp [beBytesToNat, List.foldl_append]

theorem beBytesToNat_natToBeBytes (k n : Nat) :
    beBytesToNat (natToBeBytes k n) = n % 256 ^ k := by
  induction k generalizing n with
  | zero => simp [natToBeBytes, beBytesToNat, Nat.mod_one]
  | succ k ih =>
    rw [natToBeBytes, beBytesToNat_append, ih]
    rw [pow_succ, Nat.mul_comm (256 ^ k) 256, Nat.mod_mul]
    ring

theorem natToBeBytes_mod (k n : Nat) :
    natToBeBytes k (n % 256 ^ k) = natToBeBytes k n := by
  induction k generalizing n with
  | zero => rfl
  | succ k ih =>
    rw [natToBeBytes, natToBeBytes]
    have h1 : n % 256 ^ (k + 1) % 256 = n % 256 := by
      exact Nat.mod_mod_of_dvd n (dvd_pow_self 256 (Nat.succ_ne_zero k))
    have h2 : n % 256 ^ (k + 1) / 256 = n / 256 % 256 ^ k := by
      rw [pow_succ', Nat.mod_mul_right_div_self]
    rw [h1, h2, ih]

theorem natToBeBytes_split (a b n : Nat) :
    natToBeBytes (a + b) n = natToBeBytes a (n / 256 ^ b) ++ natToBeBytes b n := by
  induction b generalizing n with
  | zero => simp [natToBeBytes]
  | succ b ih =>
    have : a + (b + 1) = (a + b) + 1 := by omega
    rw [this, natToBeBytes, ih, natToBeBytes]
    rw [Nat.div_div_eq_div_mul, ← pow_succ']
    simp

theorem natToBeBytes_32_drop_12 (n : Nat) :
    (natToBeBytes 32 n).drop 12 = natToBeBytes 20 n := by
  have h := natToBeBytes_split 12 20 n
  have h32 : (12 : Nat) + 20 = 32 := by norm_num
  rw [h32] at h
  rw [h, List.drop_append_of_le_length (by rw [natToBeBytes_length])]
  simp [natToBeBytes_length]

theorem natToBeBytes_32_take_12 (n : Nat) :
    (natToBeBytes 32 n).take 12 = natToBeBytes 12 (n / 256 ^ 20) := by
  have h := natToBeBytes_split 12 20 n
  have h32 : (12 : Nat) + 20 = 32 := by norm_num
  rw [h32] at h
  rw [h, List.take_append_of_le_length (by rw [natToBeBytes_length])]
  simp [natToBeBytes_length]

theorem natToBeBytes_20_mod_160 (n : Nat) :
    natToBeBytes 20 (n % 2 ^ 160) = natToBeBytes 20 n := by
  have h : (2 : Nat) ^ 160 = 256 ^ 20 := by norm_num
  rw [h, natToBeBytes_mod]

theorem natToBeBytes_inj {k m n : Nat} (hm : m < 256 ^ k) (hn : n < 256 ^ k)
    (h : natToBeBytes k m = natToBeBytes k n) : m = n := by
  have := congrArg beBytesToNat h
  rwa [beBytesToNat_natToBeBytes, beBytesToNat_natToBeBytes,
    Nat.mod_eq_of_lt hm, Nat.mod_eq_of_lt hn] at this

/-! ## Lemmas: fallible mapping -/

/-- Success projection of an `Except` value (used to state that a
successful `collect` is the element-wise map). -/
def okD [Inhabited β] (r : Except String β) : β :=
  match r with
  | .ok b => b
  | .error _ => default

theorem mapME_ok_eq_map [Inhabited β] {f : α → Except String β} {l : List α} {ys : List β}
    (h : mapME f l = .ok ys) : ys = l.map (fun x => okD (f x)) := by
  induction l generalizing ys with
  | nil =>
    simp only [mapME] at h
    cases h
    rfl
  | cons a l ih =>
    simp only [mapME] at h
    cases hfa : f a with
    | error e => rw [hfa] at h; cases h
    | ok b =>
      rw [hfa] at h
      cases hml : mapME f l with
      | error e => rw [hml] at h; cases h
      | ok bs =>
        rw [hml] at h
        cases h
        simp [List.map, ih hml, okD, hfa]

theorem mapME_ok_mem {f : α → Except String β} {l : List α} {ys : List β}
    (h : mapME f l = .ok ys) : ∀ y ∈ ys, ∃ x ∈ l, f x = .ok y := by
  induction l generalizing ys with
  | nil =>
    simp only [mapME] at h
    cases h
    intro y hy
    cases hy
  | cons a l ih =>
    simp only [mapME] at h
    cases hfa : f a with
    | error e => rw [hfa] at h; cases h
    | ok b =>
      rw [hfa] at h
      cases hml : mapME f l with
      | error e => rw [hml] at h; cases h
      | ok bs =>
        rw [hml] at h
        cases h
        intro y hy
        rcases List.mem_cons.mp hy with hy | hy
        · exact ⟨a, List.mem_cons_self a l, hy ▸ hfa⟩
        · rcases ih hml y hy with ⟨x, hx, hfx⟩
          exact ⟨x, List.mem_cons_of_mem a hx, hfx⟩

theorem mapME_ok_of_forall {f : α → Except String β} {l : List α}
    (h : ∀ x ∈ l, ∃ b, f x = .ok b) : ∃ ys, mapME f l = .ok ys := by
  induction l with
  | nil => exact ⟨[], rfl⟩
  | cons a l ih =>
    rcases h a (List.mem_cons_self a l) with ⟨b, hb⟩
    rcases ih (fun x hx => h x (List.mem_cons_of_mem a hx)) with ⟨bs, hbs⟩
    exact ⟨b :: bs, by simp [mapME, hb, hbs]⟩

/-! ## Lemmas: sorting -/

theorem insertionSortNat_congr {l1 l2 : List Nat} (h : l1.Perm l2) :
    List.insertionSort (· ≤ ·) l1 = List.insertionSort (· ≤ ·) l2 :=
  List.eq_of_perm_of_sorted
    ((List.perm_insertionSort _ l1).trans (h.trans (List.perm_insertionSort _ l2).symm))
    (List.sorted_insertionSort _ l1) (List.sorted_insertionSort _ l2)

/-- Strict address-key order, used to show a sort keyed only on distinct
addresses has a unique result. -/
def addrKeyLt (p q : Nat × Nat) : Prop := p.1 < q.1

instance : IsAntisymm (Nat × Nat) addrKeyLt :=
  ⟨fun _ _ h1 h2 => absurd (Nat.lt_trans h1 h2) (Nat.lt_irrefl _)⟩

theorem sorted_addrKeyLt_of_nodup {l : List (Nat × Nat)} (hs : l.Sorted addrKeyLe)
    (hn : (l.map Prod.fst).Nodup) : l.Sorted addrKeyLt := by
  have hne : l.Pairwise (fun p q : Nat × Nat => p.1 ≠ q.1) := List.pairwise_map.mp hn
  exact (hs.and hne).imp (fun h => Nat.lt_of_le_of_ne h.1 h.2)

theorem insertionSortPairs_congr {l1 l2 : List (Nat × Nat)} (h : l1.Perm l2)
    (hn : (l1.map Prod.fst).Nodup) :
    List.insertionSort addrKeyLe l1 = List.insertionSort addrKeyLe l2 := by
  have p1 := List.perm_insertionSort addrKeyLe l1
  have p2 := List.perm_insertionSort addrKeyLe l2
  have hn1 : ((List.insertionSort addrKeyLe l1).map Prod.fst).Nodup :=
    ((p1.map Prod.fst).nodup_iff).mpr hn
  have hn2 : ((List.insertionSort addrKeyLe l2).map Prod.fst).Nodup :=
    ((p2.map Prod.fst).nodup_iff).mpr (((h.map Prod.fst).nodup_iff).mp hn)
  exact List.eq_of_perm_of_sorted (p1.trans (h.trans p2.symm))
    (sorted_addrKeyLt_of_nodup (List.sorted_insertionSort _ l1) hn1)
    (sorted_addrKeyLt_of_nodup (List.sorted_insertionSort _ l2) hn2)

/-! ## Lemmas: token-id parsing -/

theorem u256FromStrRadix_lt {cs : List Char} {r n : Nat}
    (h : u256FromStrRadix cs r = some n) : n < 2 ^ 256 := by
  unfold u256FromStrRadix at h
  split at h
  · cases h
  · split at h
    · split at h
      · cases h; assumption
      · cases h
    · cases h

theorem parseTokenId_lt {s : String} {id : Nat} (h : parseTokenId s = some id) :
    id < 2 ^ 256 := by
  unfold parseTokenId at h
  exact u256FromStrRadix_lt h

theorem pow256_32_eq : (256 : Nat) ^ 32 = 2 ^ 256 := by
  norm_num

/-! ## Claim C2 -/

/-- C2: for every input string, the three address-extraction paths agree:
the token component of `split_token_id`, `extract_token_address`, and the
Permit2 `to_token` mask path return identical results — the same
`0x`-prefixed 20-byte hex string on success, and they fail on exactly the
same invalid inputs (with the same error). -/
theorem extraction_paths_agree (s : String) :
    (splitTokenId s).map Prod.snd = extractTokenAddress s ∧
      extractTokenAddress s = toToken s := by
  cases h : parseTokenId s with
  | none =>
    simp [splitTokenId, extractTokenAddress, toToken, h, Except.map]
  | some id =>
    refine ⟨by simp [splitTokenId, extractTokenAddress, h, Except.map], ?_⟩
    simp only [extractTokenAddress, toToken, h]
    have hmask : id &&& ((1 <<< 160) - 1) = id % 2 ^ 160 := by
      rw [Nat.shiftLeft_eq, one_mul]
      exact Nat.and_pow_two_sub_one_eq_mod id 160
    rw [natToBeBytes_32_drop_12, natToBeBytes_32_drop_12, hmask, natToBeBytes_20_mod_160]

/-! ## Claim C8 -/

/-- C8: on every successful `split_token_id`, the lockTag is the hex of
exactly the first 12 bytes and the token the hex of exactly the last 20
bytes of the 32-byte big-endian serialization of the parsed id, and their
concatenation reconstructs that serialization (hence the id itself). -/
theorem splitTokenId_reconstructs (s tag tok : String)
    (h : splitTokenId s = .ok (tag, tok)) :
    ∃ id tagB tokB, parseTokenId s = some id ∧ id < 2 ^ 256 ∧
      tag = "0x" ++ hexEncodeBytes tagB ∧ tok = "0x" ++ hexEncodeBytes tokB ∧
      tagB.length = 12 ∧ tokB.length = 20 ∧
      tagB ++ tokB = natToBeBytes 32 id ∧ beBytesToNat (tagB ++ tokB) = id := by
  cases hp : parseTokenId s with
  | none => rw [splitTokenId, hp] at h; cases h
  | some id =>
    rw [splitTokenId, hp] at h
    cases h
    refine ⟨id, (natToBeBytes 32 id).take 12, (natToBeBytes 32 id).drop 12,
      rfl, parseTokenId_lt hp, rfl, rfl, ?_, ?_, ?_, ?_⟩
    · simp [List.length_take, natToBeBytes_length]
    · simp [List.length_drop, natToBeBytes_length]
    · exact List.take_append_drop 12 (natToBeBytes 32 id)
    · rw [List.take_append_drop 12 (natToBeBytes 32 id), beBytesToNat_natToBeBytes,
        pow256_32_eq, Nat.mod_eq_of_lt (parseTokenId_lt hp)]

/-- Concrete instantiation of `splitTokenId_reconstructs` at a 256-bit id. -/
theorem splitTokenId_reconstructs_witness :
    ∃ tag tok, splitTokenId
        "0x00112233445566778899aabb0123456789abcdef0123456789abcdef01234567" =
        .ok (tag, tok) ∧
      ∃ id tagB tokB, parseTokenId
          "0x00112233445566778899aabb0123456789abcdef0123456789abcdef01234567" = some id ∧
        id < 2 ^ 256 ∧
        tag = "0x" ++ hexEncodeBytes tagB ∧ tok = "0x" ++ hexEncodeBytes tokB ∧
        tagB.length = 12 ∧ tokB.length = 20 ∧
        tagB ++ tokB = natToBeBytes 32 id ∧ beBytesToNat (tagB ++ tokB) = id :=
  ⟨_, _, rfl, splitTokenId_reconstructs _ _ _ rfl⟩

/-! ## Claim C1 -/

/-- C1 (amended): the simple-owner encoder is invariant under any
permutation of the owner list; the expiring-owner encoder is invariant
under any permutation of the owner list together with its matching
expirations provided the owner addresses are pairwise distinct (with a
duplicated address carrying two different expirations, the stable
address-only sort preserves the caller's relative order, so the claim
fails as stated — see the counterexample). -/
theorem owner_encoders_perm_invariant :
    (∀ i1 i2 : OwnableValidatorInput, ∀ m1 m2 : ModuleOutput,
      i1.threshold = i2.threshold → i1.owners.Perm i2.owners →
      encodeOwnable i1 = .ok m1 → encodeOwnable i2 = .ok m2 →
      m1.initData = m2.initData) ∧
    (∀ i1 i2 : ENSValidatorInput, ∀ m1 m2 : ModuleOutput,
      i1.threshold = i2.threshold →
      (ensEffectivePairs i1).Perm (ensEffectivePairs i2) →
      ((okD (parsePairsENS i1)).map Prod.fst).Nodup →
      encodeENS i1 = .ok m1 → encodeENS i2 = .ok m2 →
      m1.initData = m2.initData) := by
  constructor
  · intro i1 i2 m1 m2 ht hperm h1 h2
    unfold encodeOwnable at h1 h2
    cases e1 : mapME parseOwnerAddress i1.owners with
    | error e => rw [e1] at h1; cases h1
    | ok xs =>
      cases e2 : mapME parseOwnerAddress i2.owners with
      | error e => rw [e2] at h2; cases h2
      | ok ys =>
        rw [e1] at h1
        rw [e2] at h2
        cases h1
        cases h2
        have hxs := mapME_ok_eq_map e1
        have hys := mapME_ok_eq_map e2
        have hp : xs.Perm ys := by
          rw [hxs, hys]
          exact hperm.map _
        simp only [ModuleOutput.validator]
        rw [insertionSortNat_congr hp, ht]
  · intro i1 i2 m1 m2 ht hperm hnodup h1 h2
    unfold encodeENS at h1 h2
    cases e1 : parsePairsENS i1 with
    | error e => rw [e1] at h1; cases h1
    | ok xs =>
      cases e2 : parsePairsENS i2 with
      | error e => rw [e2] at h2; cases h2
      | ok ys =>
        rw [e1] at h1
        rw [e2] at h2
        cases h1
        cases h2
        have hxs := mapME_ok_eq_map e1
        have hys := mapME_ok_eq_map e2
        have hp : xs.Perm ys := by
          rw [hxs, hys]
          exact hperm.map _
        have hnd : (xs.map Prod.fst).Nodup := by
          have : okD (parsePairsENS i1) = xs := by rw [e1]; rfl
          rwa [this] at hnodup
        simp only [ModuleOutput.validator]
        rw [insertionSortPairs_congr hp hnd, ht]

set_option maxRecDepth 4000 in
/-- C1 counterexample: with a duplicated owner address carrying two
different expirations, permuting the owner list together with its
expirations changes the expiring-owner `initData`, so the claim as stated
(no distinctness requirement) is false. -/
theorem owner_encoders_perm_invariant_counterexample :
    (ENSValidatorInput.mk 1
        ["0x0000000000000000000000000000000000000001",
         "0x0000000000000000000000000000000000000001"] [1, 2] none).threshold =
      (ENSValidatorInput.mk 1
        ["0x0000000000000000000000000000000000000001",
         "0x0000000000000000000000000000000000000001"] [2, 1] none).threshold ∧
    (ensEffectivePairs (ENSValidatorInput.mk 1
        ["0x0000000000000000000000000000000000000001",
         "0x0000000000000000000000000000000000000001"] [1, 2] none)).Perm
      (ensEffectivePairs (ENSValidatorInput.mk 1
        ["0x0000000000000000000000000000000000000001",
         "0x0000000000000000000000000000000000000001"] [2, 1] none)) ∧
    ∃ m1 m2 : ModuleOutput,
      encodeENS (ENSValidatorInput.mk 1
        ["0x0000000000000000000000000000000000000001",
         "0x0000000000000000000000000000000000000001"] [1, 2] none) = .ok m1 ∧
      encodeENS (ENSValidatorInput.mk 1
        ["0x0000000000000000000000000000000000000001",
         "0x0000000000000000000000000000000000000001"] [2, 1] none) = .ok m2 ∧
      m1.initData ≠ m2.initData := by
  refine ⟨rfl, ?_, ?_⟩
  · exact List.Perm.swap _ _ _
  · exact ⟨_, _, rfl, rfl, by decide⟩

def c1OwnableW1 : OwnableValidatorInput :=
  ⟨1, ["0xf6c02c78ded62973b43bfa523b247da099486936",
       "0x6092086a3dc0020cd604a68fcf5d430007d51bb7"], none⟩

def c1OwnableW2 : OwnableValidatorInput :=
  ⟨1, ["0x6092086a3dc0020cd604a68fcf5d430007d51bb7",
       "0xf6c02c78ded62973b43bfa523b247da099486936"], none⟩

def c1EnsW1 : ENSValidatorInput :=
  ⟨1, ["0x0000000000000000000000000000000000000001",
       "0x0000000000000000000000000000000000000002"], [1, 2], none⟩

def c1EnsW2 : ENSValidatorInput :=
  ⟨1, ["0x0000000000000000000000000000000000000002",
       "0x0000000000000000000000000000000000000001"], [2, 1], none⟩

set_option maxRecDepth 8000 in
/-- Concrete instantiation of `owner_encoders_perm_invariant`: swapping two
distinct owners leaves both encoders' `initData` unchanged. -/
theorem owner_encoders_perm_invariant_witness :
    ∃ m1 m2 m3 m4 : ModuleOutput,
      encodeOwnable c1OwnableW1 = .ok m1 ∧ encodeOwnable c1OwnableW2 = .ok m2 ∧
      m1.initData = m2.initData ∧
      encodeENS c1EnsW1 = .ok m3 ∧ encodeENS c1EnsW2 = .ok m4 ∧
      m3.initData = m4.initData := by
  refine ⟨_, _, _, _, rfl, rfl, ?_, rfl, rfl, ?_⟩
  · exact owner_encoders_perm_invariant.1 c1OwnableW1 c1OwnableW2 _ _ rfl
      (List.Perm.swap _ _ _) rfl rfl
  · exact owner_encoders_perm_invariant.2 c1EnsW1 c1EnsW2 _ _ rfl
      (List.Perm.swap _ _ _) (by decide) rfl rfl

/-! ## Claim C9 -/

/-- C9: the expiring-owner encoder never fails because of an expiration
value — success depends only on address parsing; an expiration that does
not fit in 48 bits is silently replaced by `u32::MAX = 4294967295` in the
encoded pair, and an absent expiration at an index defaults to
`(1 << 48) - 1`. -/
theorem ens_expirations_clamped :
    ∀ input : ENSValidatorInput,
      (∀ o ∈ input.owners, (parseAddress o).isSome) →
      ∃ xs m, parsePairsENS input = .ok xs ∧ encodeENS input = .ok m ∧
        m.initData = "0x" ++ hexEncodeBytes (abiEncodeEnsParams input.threshold
          ((List.insertionSort addrKeyLe xs).map
            (fun p => (p.1, if p.2 < 2 ^ 48 then p.2 else 4294967295)))) ∧
        (∀ i, i < input.owners.length →
          (xs.map Prod.snd)[i]? =
            some (input.ownerExpirations.getD i ((1 <<< 48) - 1))) := by
  intro input hall
  have h1 : ∃ xs, parsePairsENS input = .ok xs := by
    unfold parsePairsENS
    apply mapME_ok_of_forall
    intro p hp
    have hmem : p.1 ∈ input.owners := by
      rcases List.mem_map.mp hp with ⟨q, hq, rfl⟩
      have := List.mem_enum_iff_getElem?.mp hq
      exact List.getElem?_mem this
    rcases Option.isSome_iff_exists.mp (hall p.1 hmem) with ⟨a, ha⟩
    exact ⟨(a, p.2), by simp [ha]⟩
  obtain ⟨xs, hxs⟩ := h1
  refine ⟨xs, ModuleOutput.validator (input.address.getD ENS_VALIDATOR_ADDRESS)
    ("0x" ++ hexEncodeBytes (abiEncodeEnsParams input.threshold
      ((List.insertionSort addrKeyLe xs).map (fun p => (p.1, expirationToUint48 p.2))))),
    hxs, ?_, ?_, ?_⟩
  · unfold encodeENS
    rw [hxs]
  · simp [ModuleOutput.validator, expirationToUint48]
  · have hmap := mapME_ok_eq_map hxs
    intro i hi
    rw [hmap, List.map_map, List.getElem?_map]
    unfold ensEffectivePairs
    rw [List.getElem?_map, List.getElem?_enum]
    rw [List.getElem?_eq_getElem hi]
    have hmem : input.owners[i] ∈ input.owners := List.getElem_mem hi
    rcases Option.isSome_iff_exists.mp (hall _ hmem) with ⟨a, ha⟩
    simp [okD, ha, maxUint48]

def c9W : ENSValidatorInput :=
  ⟨1, ["0x0000000000000000000000000000000000000001",
       "0x0000000000000000000000000000000000000002"], [281474976710656], none⟩

set_option maxRecDepth 8000 in
/-- Concrete instantiation of `ens_expirations_clamped`: one expiration
equal to `2 ^ 48` (out of `uint48` range) and one absent expiration. -/
theorem ens_expirations_clamped_witness :
    ∃ xs m, parsePairsENS c9W = .ok xs ∧ encodeENS c9W = .ok m ∧
      m.initData = "0x" ++ hexEncodeBytes (abiEncodeEnsParams c9W.threshold
        ((List.insertionSort addrKeyLe xs).map
          (fun p => (p.1, if p.2 < 2 ^ 48 then p.2 else 4294967295)))) ∧
      (∀ i, i < c9W.owners.length →
        (xs.map Prod.snd)[i]? =
          some (c9W.ownerExpirations.getD i ((1 <<< 48) - 1))) :=
  ens_expirations_clamped c9W (by decide)

/-! ## Claim C4 -/

instance : Inhabited MultiFactorValidatorEntry :=
  ⟨⟨"", none, none, none, none, none⟩⟩

/-- The present (index, entry) pairs of a sparse composite input, with the
original enumeration indices (a skipped `None` advances the index). -/
def presentEntries : Nat → List (Option MultiFactorValidatorEntry) →
    List (Nat × MultiFactorValidatorEntry)
  | _, [] => []
  | i, none :: rest => presentEntries (i + 1) rest
  | i, some v :: rest => (i, v) :: presentEntries (i + 1) rest

theorem buildMFEntries_ok_eq {i : Nat} {l : List (Option MultiFactorValidatorEntry)}
    {E : List (List Nat × List Nat)} (h : buildMFEntries i l = .ok E) :
    E = (presentEntries i l).map (fun p => okD (buildMFEntry p.1 p.2)) := by
  induction l generalizing i E with
  | nil =>
    simp only [buildMFEntries] at h
    cases h
    rfl
  | cons o rest ih =>
    cases o with
    | none =>
      simp only [buildMFEntries] at h
      simpa [presentEntries] using ih h
    | some v =>
      simp only [buildMFEntries] at h
      cases he : buildMFEntry i v with
      | error e => rw [he] at h; cases h
      | ok entry =>
        rw [he] at h
        cases hr : buildMFEntries (i + 1) rest with
        | error e => rw [hr] at h; cases h
        | ok entries =>
          rw [hr] at h
          cases h
          simp [presentEntries, okD, he, ih hr]

theorem buildMFEntries_ok_forall {i : Nat} {l : List (Option MultiFactorValidatorEntry)}
    {E : List (List Nat × List Nat)} (h : buildMFEntries i l = .ok E) :
    ∀ p ∈ presentEntries i l, ∃ r, buildMFEntry p.1 p.2 = .ok r ∧ r ∈ E := by
  induction l generalizing i E with
  | nil =>
    intro p hp
    cases hp
  | cons o rest ih =>
    cases o with
    | none =>
      simp only [buildMFEntries] at h
      intro p hp
      exact ih h p hp
    | some v =>
      simp only [buildMFEntries] at h
      cases he : buildMFEntry i v with
      | error e => rw [he] at h; cases h
      | ok entry =>
        rw [he] at h
        cases hr : buildMFEntries (i + 1) rest with
        | error e => rw [hr] at h; cases h
        | ok entries =>
          rw [hr] at h
          cases h
          intro p hp
          rcases List.mem_cons.mp hp with hp | hp
          · cases hp
            exact ⟨entry, he, List.mem_cons_self _ _⟩
          · rcases ih hr p hp with ⟨r, hr1, hr2⟩
            exact ⟨r, hr1, List.mem_cons_of_mem _ hr2⟩

theorem mem_presentEntries {l : List (Option MultiFactorValidatorEntry)} :
    ∀ {i j : Nat} {v}, (j, v) ∈ presentEntries i l ↔
      ∃ k, l[k]? = some (some v) ∧ j = i + k := by
  induction l with
  | nil =>
    intro i j v
    simp [presentEntries]
  | cons o rest ih =>
    intro i j v
    cases o with
    | none =>
      show (j, v) ∈ presentEntries (i + 1) rest ↔ _
      constructor
      · intro h
        rcases ih.mp h with ⟨k, hk, hj⟩
        exact ⟨k + 1, by simpa using hk, by omega⟩
      · rintro ⟨k, hk, hj⟩
        cases k with
        | zero => simp at hk
        | succ k =>
          simp only [List.getElem?_cons_succ] at hk
          exact ih.mpr ⟨k, hk, by omega⟩
    | some w =>
      show (j, v) ∈ (i, w) :: presentEntries (i + 1) rest ↔ _
      constructor
      · intro h
        rcases List.mem_cons.mp h with h | h
        · cases h
          exact ⟨0, by simp, by omega⟩
        · rcases ih.mp h with ⟨k, hk, hj⟩
          exact ⟨k + 1, by simpa using hk, by omega⟩
      · rintro ⟨k, hk, hj⟩
        cases k with
        | zero =>
          simp only [List.getElem?_cons_zero, Option.some.injEq] at hk
          cases hk
          have : j = i := by omega
          cases this
          exact List.mem_cons_self _ _
        | succ k =>
          simp only [List.getElem?_cons_succ] at hk
          exact List.mem_cons_of_mem _ (ih.mpr ⟨k, hk, by omega⟩)

theorem buildMFEntry_ok_shape {j : Nat} {v : MultiFactorValidatorEntry}
    {r : List Nat × List Nat} (h : buildMFEntry j v = .ok r) :
    ∃ inner addr data, encodeInnerValidator v = .ok inner ∧
      parseAddress inner.address = some addr ∧
      hexDecodeList (trimStart0x inner.initData.data) = some data ∧
      r = (natToBeBytes 12 j ++ natToBeBytes 20 addr, data) := by
  unfold buildMFEntry at h
  split at h
  next e heq => cases h
  next inner heq =>
    split at h
    next heq2 => cases h
    next addr heq2 =>
      split at h
      next heq3 => cases h
      next data heq3 =>
        cases h
        exact ⟨inner, addr, data, heq, heq2, heq3, rfl⟩

theorem take_12_append_20 (j addr : Nat) :
    (natToBeBytes 12 j ++ natToBeBytes 20 addr).take 12 = natToBeBytes 12 j := by
  rw [List.take_append_of_le_length (by rw [natToBeBytes_length])]
  simp [List.take_of_length_le, natToBeBytes_length]

theorem pow256_12_eq : (256 : Nat) ^ 12 = 2 ^ 96 := by
  norm_num

/-- C4: a `null` composite entry consumes no output entry, and every
present entry at original index `j` contributes exactly the pair
`([12-byte big-endian j][20-byte inner validator address], raw inner
initData bytes)` — the index is not renumbered after a skip, and no output
entry carries the index of a `null` position. -/
theorem mf_null_skip_preserves_indices :
    ∀ (input : MultiFactorValidatorInput) (E : List (List Nat × List Nat)),
      buildMFEntries 0 input.validators = .ok E →
      input.validators.length ≤ 2 ^ 96 →
      (E = (presentEntries 0 input.validators).map (fun p => okD (buildMFEntry p.1 p.2))) ∧
      (∀ j v, input.validators[j]? = some (some v) →
        ∃ inner addr data, encodeInnerValidator v = .ok inner ∧
          parseAddress inner.address = some addr ∧
          hexDecodeList (trimStart0x inner.initData.data) = some data ∧
          (natToBeBytes 12 j ++ natToBeBytes 20 addr, data) ∈ E) ∧
      (∀ i, input.validators[i]? = some none →
        ∀ e ∈ E, e.1.take 12 ≠ natToBeBytes 12 i) := by
  intro input E hE hlen
  refine ⟨buildMFEntries_ok_eq hE, ?_, ?_⟩
  · intro j v hv
    have hmem : (j, v) ∈ presentEntries 0 input.validators :=
      mem_presentEntries.mpr ⟨j, hv, by omega⟩
    rcases buildMFEntries_ok_forall hE _ hmem with ⟨r, hr, hrE⟩
    rcases buildMFEntry_ok_shape hr with ⟨inner, addr, data, hi, ha, hd, rfl⟩
    exact ⟨inner, addr, data, hi, ha, hd, hrE⟩
  · intro i hinull e heE hcontra
    rw [buildMFEntries_ok_eq hE] at heE
    rcases List.mem_map.mp heE with ⟨p, hp, hpe⟩
    obtain ⟨j, v⟩ := p
    rcases buildMFEntries_ok_forall hE _ hp with ⟨r, hr, _⟩
    have hok : e = r := by rw [← hpe, hr]; rfl
    rcases buildMFEntry_ok_shape hr with ⟨inner, addr, data, _, _, _, rfl⟩
    rw [hok, take_12_append_20] at hcontra
    rcases mem_presentEntries.mp hp with ⟨k, hk, hjk⟩
    have hjlt : j < input.validators.length := by
      rcases List.getElem?_eq_some_iff.mp hk with ⟨hlt, _⟩
      omega
    have hilt : i < input.validators.length := by
      rcases List.getElem?_eq_some_iff.mp hinull with ⟨hlt, _⟩
      omega
    have hji : j = i := by
      apply natToBeBytes_inj _ _ hcontra
      · rw [pow256_12_eq]; omega
      · rw [pow256_12_eq]; omega
    subst hji
    have : j = k := by omega
    subst this
    rw [hinull] at hk
    cases hk

def c4W : MultiFactorValidatorInput :=
  ⟨2, [none, some ⟨"ecdsa", some 1,
    some ["0xf6c02c78ded62973b43bfa523b247da099486936"], none, none, none⟩]⟩

set_option maxRecDepth 8000 in
/-- Concrete instantiation of `mf_null_skip_preserves_indices`: a `null`
entry at index 0 followed by a present entry at index 1. -/
theorem mf_null_skip_preserves_indices_witness :
    ∃ E, buildMFEntries 0 c4W.validators = .ok E ∧
      (E = (presentEntries 0 c4W.validators).map (fun p => okD (buildMFEntry p.1 p.2))) ∧
      (∀ j v, c4W.validators[j]? = some (some v) →
        ∃ inner addr data, encodeInnerValidator v = .ok inner ∧
          parseAddress inner.address = some addr ∧
          hexDecodeList (trimStart0x inner.initData.data) = some data ∧
          (natToBeBytes 12 j ++ natToBeBytes 20 addr, data) ∈ E) ∧
      (∀ i, c4W.validators[i]? = some none →
        ∀ e ∈ E, e.1.take 12 ≠ natToBeBytes 12 i) := by
  refine ⟨_, rfl, mf_null_skip_preserves_indices c4W _ rfl (by decide)⟩

/-! ## Claim C5 -/

/-- C5: a successful composite encode produces `initData` whose payload is
exactly one raw byte holding the threshold followed immediately by the
ABI encoding of the `(bytes32, bytes)` entry array — so the payload length
is `1 +` the length of the ABI-encoded array. -/
theorem mf_initdata_threshold_byte :
    ∀ (input : MultiFactorValidatorInput) (m : ModuleOutput),
      encodeMultiFactor input = .ok m →
      ∃ E, buildMFEntries 0 input.validators = .ok E ∧
        m.initData = "0x" ++ hexEncodeBytes ((input.threshold % 256) :: abiEncodeMFEntries E) ∧
        ((input.threshold % 256) :: abiEncodeMFEntries E).length =
          1 + (abiEncodeMFEntries E).length := by
  intro input m h
  unfold encodeMultiFactor at h
  cases hE : buildMFEntries 0 input.validators with
  | error e => rw [hE] at h; cases h
  | ok E =>
    rw [hE] at h
    cases h
    exact ⟨E, rfl, rfl, by simp [Nat.add_comm]⟩

def c5W : MultiFactorValidatorInput :=
  ⟨1, [some ⟨"ecdsa", some 1,
    some ["0xf6c02c78ded62973b43bfa523b247da099486936"], none, none, none⟩]⟩

set_option maxRecDepth 8000 in
/-- Concrete instantiation of `mf_initdata_threshold_byte`. -/
theorem mf_initdata_threshold_byte_witness :
    ∃ m, encodeMultiFactor c5W = .ok m ∧
      ∃ E, buildMFEntries 0 c5W.validators = .ok E ∧
        m.initData = "0x" ++ hexEncodeBytes ((c5W.threshold % 256) :: abiEncodeMFEntries E) ∧
        ((c5W.threshold % 256) :: abiEncodeMFEntries E).length =
          1 + (abiEncodeMFEntries E).length :=
  ⟨_, rfl, mf_initdata_threshold_byte c5W _ rfl⟩

/-! ## Claim C10 -/

/-- C10: the leading byte of the composite `initData` payload is the input
threshold reduced modulo 256 (`threshold as u8`); a threshold above 255 is
not rejected — it is silently truncated (encoding always succeeds for an
empty validator list, whatever the threshold). -/
theorem mf_threshold_truncated_mod256 :
    (∀ (input : MultiFactorValidatorInput) (m : ModuleOutput),
      encodeMultiFactor input = .ok m →
      ∃ rest, m.initData = "0x" ++ hexEncodeBytes ((input.threshold % 256) :: rest)) ∧
    (∀ t : Nat, ∃ m, encodeMultiFactor ⟨t, []⟩ = .ok m ∧
      m.initData = "0x" ++ hexEncodeBytes ((t % 256) :: abiEncodeMFEntries [])) := by
  constructor
  · intro input m h
    unfold encodeMultiFactor at h
    cases hE : buildMFEntries 0 input.validators with
    | error e => rw [hE] at h; cases h
    | ok E =>
      rw [hE] at h
      cases h
      exact ⟨abiEncodeMFEntries E, rfl⟩
  · intro t
    exact ⟨_, rfl, rfl⟩

/-- Concrete instantiation of `mf_threshold_truncated_mod256`: threshold
300 is accepted and its leading payload byte is `300 % 256 = 44`. -/
theorem mf_threshold_truncated_mod256_witness :
    ∃ m, encodeMultiFactor (MultiFactorValidatorInput.mk 300 []) = .ok m ∧
      m.initData = "0x" ++ hexEncodeBytes ((300 % 256) :: abiEncodeMFEntries []) ∧
      ∃ rest, m.initData = "0x" ++ hexEncodeBytes ((300 % 256) :: rest) := by
  rcases mf_threshold_truncated_mod256.2 300 with ⟨m, h1, h2⟩
  exact ⟨m, h1, h2, mf_threshold_truncated_mod256.1 _ m h1⟩

/-! ## Claim C6 -/

/-- C6: the multichain builder takes the output `domain.chainId` from the
first element only (later elements may declare different chain ids — they
are never parsed for the domain), and an empty element list is rejected
with an error and produces no output. -/
theorem compact_domain_chainid_first_element :
    (∀ (kc : List Nat → List Nat) (input : CompactInput) (out : JsonValue),
      buildCompactTypedData kc input = .ok out →
      ∃ first rest n, input.elements = first :: rest ∧ parseU64 first.chainId = some n ∧
        jsonPath out ["domain", "chainId"] = some (.num n)) ∧
    (∀ (kc : List Nat → List Nat) (input : CompactInput), input.elements = [] →
      buildCompactTypedData kc input = .error "elements must not be empty") := by
  constructor
  · intro kc input out h
    unfold buildCompactTypedData at h
    split at h
    next heq => cases h
    next first heq =>
      split at h
      next heq2 => cases h
      next n heq2 =>
        split at h
        next heq3 => cases h
        next elements heq3 =>
          cases h
          rcases List.head?_eq_some_iff.mp heq with ⟨rest, hel⟩
          exact ⟨first, rest, n, hel, heq2, rfl⟩
  · intro kc input hempty
    unfold buildCompactTypedData
    rw [hempty]
    rfl

def c6Mandate : CompactMandateInput :=
  ⟨"0x0000000000000000000000000000000000000009", [("2", "20")], "10", "100", "5",
   .obj [], .obj [], "0x00"⟩

def c6W : CompactInput :=
  ⟨"0x0000000000000000000000000000000000000008", "1", "2",
   [⟨"0x0000000000000000000000000000000000000007", "5", [("1", "10")], c6Mandate⟩,
    ⟨"0x0000000000000000000000000000000000000007", "7", [("1", "10")], c6Mandate⟩]⟩

set_option maxRecDepth 8000 in
/-- Concrete instantiation of `compact_domain_chainid_first_element`: two
elements declaring chain ids 5 and 7; the domain carries 5; the empty
list fails. -/
theorem compact_domain_chainid_first_element_witness :
    ∃ out, buildCompactTypedData (fun _ => List.replicate 32 0) c6W = .ok out ∧
      (∃ first rest n, c6W.elements = first :: rest ∧ parseU64 first.chainId = some n ∧
        jsonPath out ["domain", "chainId"] = some (.num n)) ∧
      jsonPath out ["domain", "chainId"] = some (.num 5) ∧
      buildCompactTypedData (fun _ => List.replicate 32 0)
        (CompactInput.mk "0x" "1" "2" []) = .error "elements must not be empty" :=
  ⟨_, rfl, compact_domain_chainid_first_element.1 (fun _ => List.replicate 32 0) c6W _ rfl,
    rfl, compact_domain_chainid_first_element.2 (fun _ => List.replicate 32 0) _ rfl⟩

/-! ## Claim C7 -/

/-- C7: the legacy single-chain builder emits a two-field `GasRefund`
schema (token, exchangeRate) with a fixed zero-address / zero-rate
message record, while the gas-refund builder emits a three-field schema
(token, exchangeRate, overhead) carrying the caller-supplied values. -/
theorem singlechain_gasrefund_schemas :
    (∀ (input : SingleChainLegacyInput) (out : JsonValue),
      buildSingleChainLegacy input = .ok out →
      ∃ l, jsonPath out ["types", "GasRefund"] = some (.arr l) ∧ l.length = 2 ∧
        l = [tdField "token" "address", tdField "exchangeRate" "uint256"] ∧
        jsonPath out ["message", "gasRefund"] = some (.obj [
          ("token", .str "0x0000000000000000000000000000000000000000"),
          ("exchangeRate", .str "0")])) ∧
    (∀ (input : SingleChainGasRefundInput) (out : JsonValue),
      buildSingleChainGasRefund input = .ok out →
      ∃ l, jsonPath out ["types", "GasRefund"] = some (.arr l) ∧ l.length = 3 ∧
        l = [tdField "token" "address", tdField "exchangeRate" "uint256",
          tdField "overhead" "uint256"] ∧
        jsonPath out ["message", "gasRefund"] = some (.obj [
          ("token", .str input.gasRefund.token),
          ("exchangeRate", .str input.gasRefund.exchangeRate),
          ("overhead", .str input.gasRefund.overhead)])) := by
  constructor
  · intro input out h
    unfold buildSingleChainLegacy at h
    split at h
    next heq => cases h
    next n heq =>
      cases h
      exact ⟨_, rfl, rfl, rfl, rfl⟩
  · intro input out h
    unfold buildSingleChainGasRefund at h
    split at h
    next heq => cases h
    next n heq =>
      cases h
      exact ⟨_, rfl, rfl, rfl, rfl⟩

/-- Concrete instantiation of `singlechain_gasrefund_schemas`. -/
theorem singlechain_gasrefund_schemas_witness :
    (∃ out, buildSingleChainLegacy
        (SingleChainLegacyInput.mk "0xacc" "0xexec" "1" (.obj []) "9") = .ok out ∧
      ∃ l, jsonPath out ["types", "GasRefund"] = some (.arr l) ∧ l.length = 2 ∧
        l = [tdField "token" "address", tdField "exchangeRate" "uint256"] ∧
        jsonPath out ["message", "gasRefund"] = some (.obj [
          ("token", .str "0x0000000000000000000000000000000000000000"),
          ("exchangeRate", .str "0")])) ∧
    (∃ out, buildSingleChainGasRefund
        (SingleChainGasRefundInput.mk "0xacc" "0xexec" "1" (.obj []) "9"
          (GasRefundInput.mk "0xtok" "77" "88")) = .ok out ∧
      ∃ l, jsonPath out ["types", "GasRefund"] = some (.arr l) ∧ l.length = 3 ∧
        l = [tdField "token" "address", tdField "exchangeRate" "uint256",
          tdField "overhead" "uint256"] ∧
        jsonPath out ["message", "gasRefund"] = some (.obj [
          ("token", .str "0xtok"), ("exchangeRate", .str "77"),
          ("overhead", .str "88")])) :=
  ⟨⟨_, rfl, singlechain_gasrefund_schemas.1
      (SingleChainLegacyInput.mk "0xacc" "0xexec" "1" (.obj []) "9") _ rfl⟩,
   ⟨_, rfl, singlechain_gasrefund_schemas.2
      (SingleChainGasRefundInput.mk "0xacc" "0xexec" "1" (.obj []) "9"
        (GasRefundInput.mk "0xtok" "77" "88")) _ rfl⟩⟩

/-! ## Claim C3 -/

theorem buildCommitment_ok_amount {p : String × String} {c : JsonValue}
    (h : buildCommitment p = .ok c) :
    ∃ s, jsonPath c ["amount"] = some (.str s) := by
  unfold buildCommitment at h
  split at h
  next heq => cases h
  next lockTag token heq =>
    cases h
    exact ⟨_, rfl⟩

theorem buildTokenOut_ok_amount {p : String × String} {c : JsonValue}
    (h : buildTokenOut p = .ok c) :
    ∃ s, jsonPath c ["amount"] = some (.str s) := by
  unfold buildTokenOut at h
  split at h
  next heq => cases h
  next token heq =>
    cases h
    exact ⟨_, rfl⟩

theorem buildPermit2Token_ok_amount {p : String × String} {c : JsonValue}
    (h : buildPermit2Token p = .ok c) :
    ∃ s, jsonPath c ["amount"] = some (.str s) := by
  unfold buildPermit2Token at h
  split at h
  next heq => cases h
  next token heq =>
    cases h
    exact ⟨_, rfl⟩

theorem buildCompactElement_ok_fields {kc : List Nat → List Nat}
    {x : CompactElementInput} {el : JsonValue}
    (h : buildCompactElement kc x = .ok el) :
    (∃ s, jsonPath el ["chainId"] = some (.str s)) ∧
    (∃ s, jsonPath el ["mandate", "minGas"] = some (.str s)) ∧
    (∃ s, jsonPath el ["mandate", "target", "targetChain"] = some (.str s)) ∧
    (∃ s, jsonPath el ["mandate", "target", "fillExpiry"] = some (.str s)) ∧
    (∃ cl, jsonPath el ["commitments"] = some (.arr cl) ∧
      ∀ c ∈ cl, ∃ s, jsonPath c ["amount"] = some (.str s)) ∧
    (∃ tl, jsonPath el ["mandate", "target", "tokenOut"] = some (.arr tl) ∧
      ∀ t ∈ tl, ∃ s, jsonPath t ["amount"] = some (.str s)) := by
  unfold buildCompactElement at h
  split at h
  next heq => cases h
  next commitments heq =>
    split at h
    next heq2 => cases h
    next tokenOut heq2 =>
      split at h
      next heq3 => cases h
      next q heq3 =>
        cases h
        refine ⟨⟨_, rfl⟩, ⟨_, rfl⟩, ⟨_, rfl⟩, ⟨_, rfl⟩, ⟨_, rfl, ?_⟩, ⟨_, rfl, ?_⟩⟩
        · intro c hc
          rcases mapME_ok_mem heq c hc with ⟨p, _, hp⟩
          exact buildCommitment_ok_amount hp
        · intro t ht
          rcases mapME_ok_mem heq2 t ht with ⟨p, _, hp⟩
          exact buildTokenOut_ok_amount hp

/-- C3: in every successful typed-data build, the integer-valued fields
the builders serialize into the message body (amounts, nonces,
deadlines/expiries, fill expiries, min gas, exchange rates, overhead, and
chain ids appearing inside the message) are emitted as JSON strings —
never native JSON numbers — while the outer `domain.chainId` is a native
number. -/
theorem bigint_fields_are_strings :
    (∀ (kc : List Nat → List Nat) (input : CompactInput) (out : JsonValue),
      buildCompactTypedData kc input = .ok out →
      (∃ n, jsonPath out ["domain", "chainId"] = some (.num n)) ∧
      (∃ s, jsonPath out ["message", "nonce"] = some (.str s)) ∧
      (∃ s, jsonPath out ["message", "expires"] = some (.str s)) ∧
      (∃ els, jsonPath out ["message", "elements"] = some (.arr els) ∧
        ∀ el ∈ els,
          (∃ s, jsonPath el ["chainId"] = some (.str s)) ∧
          (∃ s, jsonPath el ["mandate", "minGas"] = some (.str s)) ∧
          (∃ s, jsonPath el ["mandate", "target", "targetChain"] = some (.str s)) ∧
          (∃ s, jsonPath el ["mandate", "target", "fillExpiry"] = some (.str s)) ∧
          (∃ cl, jsonPath el ["commitments"] = some (.arr cl) ∧
            ∀ c ∈ cl, ∃ s, jsonPath c ["amount"] = some (.str s)) ∧
          (∃ tl, jsonPath el ["mandate", "target", "tokenOut"] = some (.arr tl) ∧
            ∀ t ∈ tl, ∃ s, jsonPath t ["amount"] = some (.str s)))) ∧
    (∀ (kc : List Nat → List Nat) (input : Permit2Input) (out : JsonValue),
      buildPermit2TypedData kc input = .ok out →
      (∃ n, jsonPath out ["domain", "chainId"] = some (.num n)) ∧
      (∃ s, jsonPath out ["message", "nonce"] = some (.str s)) ∧
      (∃ s, jsonPath out ["message", "deadline"] = some (.str s)) ∧
      (∃ s, jsonPath out ["message", "mandate", "minGas"] = some (.str s)) ∧
      (∃ s, jsonPath out ["message", "mandate", "target", "targetChain"] = some (.str s)) ∧
      (∃ s, jsonPath out ["message", "mandate", "target", "fillExpiry"] = some (.str s)) ∧
      (∃ pl, jsonPath out ["message", "permitted"] = some (.arr pl) ∧
        ∀ p ∈ pl, ∃ s, jsonPath p ["amount"] = some (.str s)) ∧
      (∃ tl, jsonPath out ["message", "mandate", "target", "tokenOut"] = some (.arr tl) ∧
        ∀ t ∈ tl, ∃ s, jsonPath t ["amount"] = some (.str s))) ∧
    (∀ (input : SingleChainLegacyInput) (out : JsonValue),
      buildSingleChainLegacy input = .ok out →
      (∃ n, jsonPath out ["domain", "chainId"] = some (.num n)) ∧
      (∃ s, jsonPath out ["message", "nonce"] = some (.str s)) ∧
      (∃ s, jsonPath out ["message", "gasRefund", "exchangeRate"] = some (.str s))) ∧
    (∀ (input : SingleChainGasRefundInput) (out : JsonValue),
      buildSingleChainGasRefund input = .ok out →
      (∃ n, jsonPath out ["domain", "chainId"] = some (.num n)) ∧
      (∃ s, jsonPath out ["message", "nonce"] = some (.str s)) ∧
      (∃ s, jsonPath out ["message", "gasRefund", "exchangeRate"] = some (.str s)) ∧
      (∃ s, jsonPath out ["message", "gasRefund", "overhead"] = some (.str s))) := by
  refine ⟨?_, ?_, ?_, ?_⟩
  · intro kc input out h
    unfold buildCompactTypedData at h
    split at h
    next heq => cases h
    next first heq =>
      split at h
      next heq2 => cases h
      next n heq2 =>
        split at h
        next heq3 => cases h
        next elements heq3 =>
          cases h
          refine ⟨⟨_, rfl⟩, ⟨_, rfl⟩, ⟨_, rfl⟩, ⟨_, rfl, ?_⟩⟩
          intro el hel
          rcases mapME_ok_mem heq3 el hel with ⟨x, _, hx⟩
          exact buildCompactElement_ok_fields hx
  · intro kc input out h
    unfold buildPermit2TypedData at h
    dsimp only at h
    split at h
    next heq => cases h
    next n heq =>
      split at h
      next heq2 => cases h
      next permitted heq2 =>
        split at h
        next heq3 => cases h
        next tokenOut heq3 =>
          split at h
          next heq4 => cases h
          next q heq4 =>
            cases h
            refine ⟨⟨_, rfl⟩, ⟨_, rfl⟩, ⟨_, rfl⟩, ⟨_, rfl⟩, ⟨_, rfl⟩, ⟨_, rfl⟩,
              ⟨_, rfl, ?_⟩, ⟨_, rfl, ?_⟩⟩
            · intro p hp
              rcases mapME_ok_mem heq2 p hp with ⟨x, _, hx⟩
              exact buildPermit2Token_ok_amount hx
            · intro t ht
              rcases mapME_ok_mem heq3 t ht with ⟨x, _, hx⟩
              exact buildPermit2Token_ok_amount hx
  · intro input out h
    unfold buildSingleChainLegacy at h
    split at h
    next heq => cases h
    next n heq =>
      cases h
      exact ⟨⟨_, rfl⟩, ⟨_, rfl⟩, ⟨_, rfl⟩⟩
  · intro input out h
    unfold buildSingleChainGasRefund at h
    split at h
    next heq => cases h
    next n heq =>
      cases h
      exact ⟨⟨_, rfl⟩, ⟨_, rfl⟩, ⟨_, rfl⟩, ⟨_, rfl⟩⟩

def c3Mandate : CompactMandateInput :=
  ⟨"0x0000000000000000000000000000000000000009", [("2", "20")], "10", "100", "5",
   .obj [], .obj [], "0x00"⟩

def c3CompactW : CompactInput :=
  ⟨"0x0000000000000000000000000000000000000008", "11", "22",
   [⟨"0x0000000000000000000000000000000000000007", "5", [("1", "10")], c3Mandate⟩]⟩

def c3Permit2W : Permit2Input :=
  ⟨⟨"0x0000000000000000000000000000000000000007", "5", [("1", "10")], c3Mandate⟩,
   "11", "22"⟩

def c3LegacyW : SingleChainLegacyInput :=
  ⟨"0xacc3", "0xexec3", "1", .obj [], "9"⟩

def c3RefundW : SingleChainGasRefundInput :=
  ⟨"0xacc3", "0xexec3", "1", .obj [], "9", ⟨"0xtok3", "77", "88"⟩⟩

set_option maxRecDepth 8000 in
/-- Concrete instantiation of `bigint_fields_are_strings` for all four
builders. -/
theorem bigint_fields_are_strings_witness :
    (∃ out, buildCompactTypedData (fun _ => List.replicate 32 0) c3CompactW = .ok out ∧
      (∃ n, jsonPath out ["domain", "chainId"] = some (.num n)) ∧
      (∃ s, jsonPath out ["message", "nonce"] = some (.str s)) ∧
      (∃ s, jsonPath out ["message", "expires"] = some (.str s)) ∧
      (∃ els, jsonPath out ["message", "elements"] = some (.arr els) ∧
        ∀ el ∈ els,
          (∃ s, jsonPath el ["chainId"] = some (.str s)) ∧
          (∃ s, jsonPath el ["mandate", "minGas"] = some (.str s)) ∧
          (∃ s, jsonPath el ["mandate", "target", "targetChain"] = some (.str s)) ∧
          (∃ s, jsonPath el ["mandate", "target", "fillExpiry"] = some (.str s)) ∧
          (∃ cl, jsonPath el ["commitments"] = some (.arr cl) ∧
            ∀ c ∈ cl, ∃ s, jsonPath c ["amount"] = some (.str s)) ∧
          (∃ tl, jsonPath el ["mandate", "target", "tokenOut"] = some (.arr tl) ∧
            ∀ t ∈ tl, ∃ s, jsonPath t ["amount"] = some (.str s)))) ∧
    (∃ out, buildPermit2TypedData (fun _ => List.replicate 32 0) c3Permit2W = .ok out ∧
      (∃ n, jsonPath out ["domain", "chainId"] = some (.num n)) ∧
      (∃ s, jsonPath out ["message", "nonce"] = some (.str s)) ∧
      (∃ s, jsonPath out ["message", "deadline"] = some (.str s))) ∧
    (∃ out, buildSingleChainLegacy c3LegacyW = .ok out ∧
      (∃ n, jsonPath out ["domain", "chainId"] = some (.num n)) ∧
      (∃ s, jsonPath out ["message", "nonce"] = some (.str s)) ∧
      (∃ s, jsonPath out ["message", "gasRefund", "exchangeRate"] = some (.str s))) ∧
    (∃ out, buildSingleChainGasRefund c3RefundW = .ok out ∧
      (∃ n, jsonPath out ["domain", "chainId"] = some (.num n)) ∧
      (∃ s, jsonPath out ["message", "nonce"] = some (.str s)) ∧
      (∃ s, jsonPath out ["message", "gasRefund", "exchangeRate"] = some (.str s)) ∧
      (∃ s, jsonPath out ["message", "gasRefund", "overhead"] = some (.str s))) := by
  refine ⟨⟨_, rfl, ?_⟩, ⟨_, rfl, ?_⟩, ⟨_, rfl, ?_⟩, ⟨_, rfl, ?_⟩⟩
  · exact bigint_fields_are_strings.1 (fun _ => List.replicate 32 0) c3CompactW _ rfl
  · have h := bigint_fields_are_strings.2.1 (fun _ => List.replicate 32 0) c3Permit2W _ rfl
    exact ⟨h.1, h.2.1, h.2.2.1⟩
  · exact bigint_fields_are_strings.2.2.1 c3LegacyW _ rfl
  · exact bigint_fields_are_strings.2.2.2 c3RefundW _ rfl

/-! ## Golden vectors

The concrete expected outputs of the unit tests in `ownable.rs` and
`webauthn.rs`, anchoring the ABI layout model to the reference bytes. -/

set_option maxRecDepth 8000 in
/-- Golden vector of `ownable.rs` (`golden_two_owners_sorted`): two owners
supplied in descending order are re-sorted ascending in the encoded tail. -/
theorem golden_ownable_two_owners_sorted :
    encodeOwnable ⟨1, ["0xf6c02c78ded62973b43bfa523b247da099486936",
        "0x6092086a3dc0020cd604a68fcf5d430007d51bb7"], none⟩ =
      .ok (ModuleOutput.validator OWNABLE_VALIDATOR_ADDRESS
        "0x0000000000000000000000000000000000000000000000000000000000000001000000000000000000000000000000000000000000000000000000000000004000000000000000000000000000000000000000000000000000000000000000020000000000000000000000006092086a3dc0020cd604a68fcf5d430007d51bb7000000000000000000000000f6c02c78ded62973b43bfa523b247da099486936") :=
  rfl

set_option maxRecDepth 8000 in
/-- Golden vector of `webauthn.rs` (`golden_single_passkey`): one
credential, `requireUV` word forced to zero. -/
theorem golden_webauthn_single_passkey :
    encodeWebauthn ⟨1, [⟨"0x580a9af0569ad3905b26a703201b358aa0904236642ebe79b22a19d00d373763",
        "0x7d46f725a5427ae45a9569259bf67e1e16b187d7b3ad1ed70138c4f0409677d1"⟩], none⟩ =
      .ok (ModuleOutput.validator WEBAUTHN_VALIDATOR_ADDRESS
        "0x000000000000000000000000000000000000000000000000000000000000000100000000000000000000000000000000000000000000000000000000000000400000000000000000000000000000000000000000000000000000000000000001580a9af0569ad3905b26a703201b358aa0904236642ebe79b22a19d00d3737637d46f725a5427ae45a9569259bf67e1e16b187d7b3ad1ed70138c4f0409677d10000000000000000000000000000000000000000000000000000000000000000") :=
  rfl
